import Mathlib

/-
Verification of the moderation-service rule cache and decision procedure
(src/cache.rs, src/routes.rs, src/models.rs), as a shallow embedding.

Modelling conventions:
* Rust `String` text is modelled as `List Char` (`Str`).  Rust
  `str::to_lowercase` is modelled character-wise by `Char.toLower`
  (the ASCII fragment; all inputs considered here are ASCII except the
  fixed Turkish reason tag, which is never lowercased by the code).
* A compiled `regex::Regex` is modelled by its observable behaviour at
  decision time: its unanchored match predicate `Str -> Bool`
  (`RegexSet::matches` only reports, per pattern, whether the pattern
  matches anywhere in the text).  `Regex::as_str` followed by
  recompilation in `RegexSet::new` preserves that predicate.
* The `moka` caches are modelled as association lists with
  insert-overwrite (`upsert`).  `moka`'s `iter()` makes no ordering
  guarantee, so the iteration order used by `load_regex_rules` is an
  explicit argument `iter`, constrained (where a theorem needs it) to be
  a permutation of the cache contents.
* `aho_corasick::AhoCorasick::new` uses the default
  `MatchKind::Standard`.  Under standard semantics, `find` reports the
  first match detected by the left-to-right scan: the occurrence with
  the smallest end offset; among occurrences with the same end offset
  the automaton state's match list yields the longest one first (the
  smallest start offset), and among identical spans (duplicate
  patterns) the smallest pattern index.  `acStdFind` computes exactly
  that minimum.
-/

/-- Text and stored strings: a Rust `String` as its character list. -/
abbrev Str := List Char

/-- Character-wise lowercasing, modelling `str::to_lowercase` on the
ASCII fragment. -/
def lowerStr (s : Str) : Str := s.map Char.toLower

/-- Model of a compiled `regex::Regex`: its unanchored match predicate
(does the pattern match anywhere in the text). -/
abbrev RegexM := Str → Bool

/-- Insert-overwrite on an association list, modelling
`moka::future::Cache::insert`. -/
def upsert {α β : Type} [DecidableEq α] (k : α) (v : β) (m : List (α × β)) :
    List (α × β) :=
  if m.any (fun p => decide (p.1 = k)) then
    m.map (fun p => if p.1 = k then (k, v) else p)
  else m ++ [(k, v)]

/-- `p` occurs in `t` starting at position `s`. -/
def occursAtB (p t : Str) (s : Nat) : Bool :=
  decide ((t.drop s).take p.length = p)

/-- Unanchored substring containment: the match predicate of a regex
that is a plain literal (used to instantiate `RegexM` in examples). -/
def containsSub (p : Str) : RegexM := fun t =>
  (List.range (t.length + 1)).any (fun s => occursAtB p t s)

/-- Lexicographic order on (end, start, pattern index) triples: the
order in which standard Aho-Corasick semantics prefers matches. -/
def tripLe (a b : Nat × Nat × Nat) : Bool :=
  decide (a.1 < b.1 ∨ (a.1 = b.1 ∧
    (a.2.1 < b.2.1 ∨ (a.2.1 = b.2.1 ∧ a.2.2 ≤ b.2.2))))

/-- All occurrences of any pattern in the text, as
(end, start, pattern index) triples. -/
def stdCandidates (ps : List Str) (t : Str) : List (Nat × Nat × Nat) :=
  (List.range ps.length).flatMap (fun i =>
    match ps.get? i with
    | some p =>
      (List.range (t.length + 1)).filterMap (fun s =>
        if occursAtB p t s then some (s + p.length, s, i) else none)
    | none => [])

/-- Minimum of a triple list under `tripLe`; `none` iff empty. -/
def minTrip : List (Nat × Nat × Nat) → Option (Nat × Nat × Nat)
  | [] => none
  | x :: xs => some (xs.foldl (fun acc y => if tripLe acc y then acc else y) x)

/-- Model of `AhoCorasick::find` under the default `MatchKind::Standard`
semantics: the occurrence that the left-to-right scan detects first,
i.e. the `tripLe`-minimal (end, start, pattern index) occurrence. -/
def acStdFind (ps : List Str) (t : Str) : Option (Nat × Nat × Nat) :=
  minTrip (stdCandidates ps t)

/-- Model of `RegexSet::matches(..).into_iter().next()`: the smallest
pattern index whose regex matches the text. -/
def firstSetMatch (set : List RegexM) (t : Str) : Option Nat :=
  (List.range set.length).find? (fun i =>
    match set.get? i with
    | some f => f t
    | none => false)

/-- `cache.rs` `BadWordsMatcher`.  The `ac` automaton field is a pure
function of `words` (the pattern list handed to `AhoCorasick::new`), so
it is not stored separately; `acStdFind words` plays its role. -/
structure BadWordsMatcher where
  words : List Str
  actions : List Str
deriving DecidableEq

/-- `cache.rs` `RegexSetBundle`.  `set` is the compiled pattern set,
each pattern modelled by its match predicate. -/
structure RegexSetBundle where
  set : List RegexM
  descriptions : List Str
  actions : List Str

/-- `cache.rs` `ModerationCache`: raw caches plus the two published
matcher bundles (absence modelled by `Option`, as in the source's
`RwLock<Option<Arc<..>>>`). -/
structure ModerationCache where
  bad_words : List (Str × Str)
  regex_rules : List (Int × (RegexM × Str × Str))
  settings : List (Str × Str)
  bad_words_matcher : Option BadWordsMatcher
  regex_set_bundle : Option RegexSetBundle

/-- `ModerationCache::new`: empty caches, nothing published. -/
def ModerationCache.new : ModerationCache :=
  { bad_words := []
    regex_rules := []
    settings := []
    bad_words_matcher := none
    regex_set_bundle := none }

/-- `ModerationCache::load_bad_words`: invalidate and repopulate the raw
cache with lowercased words, and publish a matcher over the lowercased
pattern list (or absence when the list is empty).
`AhoCorasick::new` on a word list always succeeds, so the `expect` in
the source is not an error path here. -/
def load_bad_words (c : ModerationCache) (words : List (Str × Str)) :
    ModerationCache :=
  let normalized := words.map (fun wa => (lowerStr wa.1, wa.2))
  let patterns := normalized.map Prod.fst
  let actions := normalized.map Prod.snd
  { c with
    bad_words := normalized.foldl (fun m wa => upsert wa.1 wa.2 m) []
    bad_words_matcher :=
      if patterns.isEmpty then none
      else some { words := patterns, actions := actions } }

/-- `ModerationCache::load_regex_rules`: invalidate and repopulate the
raw cache keyed by id, then build the published bundle by iterating the
cache.  `moka`'s iteration order is unspecified, so it is the explicit
argument `iter`; a faithful call passes a permutation of the cache
contents.  `RegexSet::new` recompiles the stored pattern strings,
modelled as reusing each stored predicate. -/
def load_regex_rules (c : ModerationCache)
    (items : List (Int × (RegexM × Str × Str)))
    (iter : List (Int × (RegexM × Str × Str))) : ModerationCache :=
  let cacheMap := items.foldl (fun m it => upsert it.1 it.2 m) []
  let patterns := iter.map (fun e => e.2.1)
  let descriptions := iter.map (fun e => e.2.2.1)
  let actions := iter.map (fun e => e.2.2.2)
  { c with
    regex_rules := cacheMap
    regex_set_bundle :=
      if patterns.isEmpty then none
      else some { set := patterns, descriptions := descriptions,
                  actions := actions } }

/-- `ModerationCache::load_settings`: invalidate and repopulate the
settings cache. -/
def load_settings (c : ModerationCache) (items : List (Str × Str)) :
    ModerationCache :=
  { c with settings := items.foldl (fun m kv => upsert kv.1 kv.2 m) [] }

/-- `models.rs` `ModerationResponse`. -/
structure ModerationResponse where
  status : Str
  reason : Option Str
deriving DecidableEq

/-- The default decision of `moderate_comment`. -/
def approvedResponse : ModerationResponse :=
  { status := "APPROVED".data, reason := none }

/-- The fixed reason tag the source formats before the matched word
(`format!("Küfür tespit edildi: {word}")`). -/
def litReasonTag : Str := "Küfür tespit edildi: ".data

/-- The regex stage of `moderate_comment` (routes.rs lines 293-309):
first matching pattern index, else APPROVED. -/
def regexStage (ob : Option RegexSetBundle) (text : Str) :
    ModerationResponse :=
  match ob with
  | some bundle =>
    match firstSetMatch bundle.set text with
    | some idx =>
      { status := bundle.actions.getD idx []
        reason := some (bundle.descriptions.getD idx []) }
    | none => approvedResponse
  | none => approvedResponse

/-- Body of `moderate_comment` after the initial lowercasing: literal
stage with early return, then regex stage, then APPROVED.  Indexing
into the parallel arrays uses `getD`; claim C10 shows the index is
always in bounds for published bundles, matching the source's panicking
index. -/
def moderateLowered (c : ModerationCache) (text : Str) :
    ModerationResponse :=
  match c.bad_words_matcher with
  | some bundle =>
    match acStdFind bundle.words text with
    | some (_, _, i) =>
      { status := bundle.actions.getD i []
        reason := some (litReasonTag ++ bundle.words.getD i []) }
    | none => regexStage c.regex_set_bundle text
  | none => regexStage c.regex_set_bundle text

/-- `routes.rs` `moderate_comment`: lowercase the content once, then
run the staged match. -/
def moderate_comment (c : ModerationCache) (content : Str) :
    ModerationResponse :=
  moderateLowered c (lowerStr content)

/-- The literal stage's match result, as `moderate_comment` computes it:
`none` when no literal bundle is published or the automaton finds no
occurrence. -/
def literalIdx (c : ModerationCache) (text : Str) :
    Option (Nat × Nat × Nat) :=
  match c.bad_words_matcher with
  | some m => acStdFind m.words text
  | none => none

/-- The regex stage's match result, as `moderate_comment` computes it:
`none` when no regex bundle is published or no pattern matches. -/
def regexIdx (c : ModerationCache) (text : Str) : Option Nat :=
  match c.regex_set_bundle with
  | some rb => firstSetMatch rb.set text
  | none => none

/-- `errors.rs` `Error` variants relevant to the modelled handlers. -/
inductive ErrorKind where
  | validation
  | db
  | regexCompile
  | notFound
  | internal
  | unauthorized
deriving DecidableEq

/-- `models.rs` `BadWordRow` (action as its serialized string). -/
structure BadWordRow where
  id : Int
  word : Str
  moderation_action : Str
deriving DecidableEq

/-- `models.rs` `RegexRuleRow`. -/
structure RegexRuleRow where
  id : Int
  pattern : Str
  description : Option Str
  moderation_action : Str
deriving DecidableEq

/-- `routes.rs` `delete_badword`: DELETE rows whose word equals `w`
from the external table; if no row was affected return `NotFound`
without touching the cache, else refetch ordered by id and reload.
Result: (handler outcome, new table, new cache). -/
def delete_badword (db : List BadWordRow) (c : ModerationCache)
    (w : Str) : Except ErrorKind Unit × List BadWordRow × ModerationCache :=
  let remaining := db.filter (fun r => decide (r.word ≠ w))
  if db.length - remaining.length = 0 then
    (Except.error ErrorKind.notFound, db, c)
  else
    let rows := List.insertionSort (fun a b => a.id ≤ b.id) remaining
    (Except.ok (), remaining,
      load_bad_words c (rows.map (fun r => (r.word, r.moderation_action))))

/-- `routes.rs` `delete_regex`: DELETE the row with the given id; if no
row was affected return `NotFound` without touching the cache, else
refetch ordered by id, recompile every pattern (`compile` models
`Regex::new(..).unwrap()`), default missing descriptions to
"Regex kuralı", and reload (with `iter` the cache iteration order used
by that reload). -/
def delete_regex (compile : Str → RegexM) (db : List RegexRuleRow)
    (c : ModerationCache) (rid : Int)
    (iter : List (Int × (RegexM × Str × Str))) :
    Except ErrorKind Unit × List RegexRuleRow × ModerationCache :=
  let remaining := db.filter (fun r => decide (r.id ≠ rid))
  if db.length - remaining.length = 0 then
    (Except.error ErrorKind.notFound, db, c)
  else
    let rows := List.insertionSort (fun a b => a.id ≤ b.id) remaining
    let compiled := rows.map (fun r =>
      (r.id, (compile r.pattern, r.description.getD "Regex kuralı".data,
        r.moderation_action)))
    (Except.ok (), remaining, load_regex_rules c compiled iter)

/-- C1 example rule with id 1: regex matching any text containing "aa". -/
def c1_rule1 : Int × (RegexM × Str × Str) :=
  (1, (containsSub "aa".data, "d1".data, "REJECTED".data))

/-- C1 example rule with id 2: regex matching any text containing "bb". -/
def c1_rule2 : Int × (RegexM × Str × Str) :=
  (2, (containsSub "bb".data, "d2".data, "NEEDS_REVIEW".data))

/-- C1 example cache: rules delivered in ascending id order, cache
iterated in the reverse order (a permutation `moka` is free to use). -/
def c1_cache : ModerationCache :=
  load_regex_rules ModerationCache.new [c1_rule1, c1_rule2] [c1_rule2, c1_rule1]

/-- C2 example cache: literal words "abc" then "ab", in that order. -/
def c2_cache : ModerationCache :=
  load_bad_words ModerationCache.new
    [("abc".data, "REJECTED".data), ("ab".data, "NEEDS_REVIEW".data)]

/-- The matcher `c2_cache` publishes. -/
def c2_matcher : BadWordsMatcher :=
  { words := ["abc".data, "ab".data]
    actions := ["REJECTED".data, "NEEDS_REVIEW".data] }

/-- C3 example regex rule (id 5): matches texts containing
"free money". -/
def c3_rule : Int × (RegexM × Str × Str) :=
  (5, (containsSub "free money".data, "d5".data, "NEEDS_REVIEW".data))

/-- C3 example cache: literal rule "spam" REJECTED plus regex rule 5. -/
def c3_cache : ModerationCache :=
  load_regex_rules
    (load_bad_words ModerationCache.new [("spam".data, "REJECTED".data)])
    [c3_rule] [c3_rule]

/-- The literal matcher `c3_cache` publishes. -/
def c3_matcher : BadWordsMatcher :=
  { words := ["spam".data], actions := ["REJECTED".data] }

/-- The regex bundle `c3_cache` publishes. -/
def c3_bundle : RegexSetBundle :=
  { set := [containsSub "free money".data]
    descriptions := ["d5".data]
    actions := ["NEEDS_REVIEW".data] }

/-- C4 example cache: one literal rule (word "spam", REJECTED). -/
def c4_cache : ModerationCache :=
  load_bad_words ModerationCache.new [("spam".data, "REJECTED".data)]

/-- The matcher `c4_cache` publishes. -/
def c4_matcher : BadWordsMatcher :=
  { words := ["spam".data], actions := ["REJECTED".data] }

/-- C7 example cache: literal rule "spam" plus a regex rule matching
"free money" (the spec's end-to-end example rule set). -/
def c7_cache : ModerationCache :=
  load_regex_rules
    (load_bad_words ModerationCache.new [("spam".data, "REJECTED".data)])
    [(5, (containsSub "free money".data, "d5".data, "NEEDS_REVIEW".data))]
    [(5, (containsSub "free money".data, "d5".data, "NEEDS_REVIEW".data))]

/-- C8 example literal-rule table. -/
def c8_db : List BadWordRow := [⟨1, "spam".data, "REJECTED".data⟩]

/-- C8 example regex-rule table. -/
def c8_rdb : List RegexRuleRow := [⟨5, "x".data, none, "REJECTED".data⟩]

/-- C9 example cache with settings key k = v1 and one literal rule. -/
def c9_cache1 : ModerationCache :=
  load_bad_words (load_settings ModerationCache.new
    [("k".data, "v1".data)]) [("bad".data, "REJECTED".data)]

/-- C9 example cache identical to `c9_cache1` except for the settings
contents. -/
def c9_cache2 : ModerationCache :=
  load_bad_words (load_settings ModerationCache.new
    [("k".data, "v2".data)]) [("bad".data, "REJECTED".data)]

/-- C10 example literal cache. -/
def c10_cache : ModerationCache :=
  load_bad_words ModerationCache.new [("aa".data, "REJECTED".data)]

/-- C10 example regex rule. -/
def c10_rule : Int × (RegexM × Str × Str) :=
  (1, (containsSub "bb".data, "d".data, "REJECTED".data))

/-- C10 example regex cache. -/
def c10_rcache : ModerationCache :=
  load_regex_rules ModerationCache.new [c10_rule] [c10_rule]

/-- The matcher `c10_cache` publishes. -/
def c10_matcher : BadWordsMatcher :=
  { words := ["aa".data], actions := ["REJECTED".data] }

/-- The regex bundle `c10_rcache` publishes. -/
def c10_bundle : RegexSetBundle :=
  { set := [containsSub "bb".data]
    descriptions := ["d".data]
    actions := ["REJECTED".data] }

theorem tripLe_refl (a : Nat × Nat × Nat) : tripLe a a = true := by
  simp [tripLe]

theorem tripLe_total (a b : Nat × Nat × Nat) :
    tripLe a b = true ∨ tripLe b a = true := by
  simp only [tripLe, decide_eq_true_eq]
  omega

theorem tripLe_trans {a b c : Nat × Nat × Nat} (h1 : tripLe a b = true)
    (h2 : tripLe b c = true) : tripLe a c = true := by
  simp only [tripLe, decide_eq_true_eq] at h1 h2 ⊢
  omega

theorem foldlMin_spec (xs : List (Nat × Nat × Nat)) :
    ∀ x : Nat × Nat × Nat,
    (xs.foldl (fun acc y => if tripLe acc y then acc else y) x) ∈ x :: xs ∧
    ∀ y ∈ x :: xs,
      tripLe (xs.foldl (fun acc y => if tripLe acc y then acc else y) x) y
        = true := by
  induction xs with
  | nil =>
    intro x
    refine ⟨List.mem_singleton.mpr rfl, ?_⟩
    intro y hy
    rw [List.mem_singleton] at hy
    subst hy
    exact tripLe_refl _
  | cons z zs ih =>
    intro x
    have hstep : (z :: zs).foldl (fun acc y => if tripLe acc y then acc else y) x
        = zs.foldl (fun acc y => if tripLe acc y then acc else y)
            (if tripLe x z then x else z) := rfl
    rw [hstep]
    by_cases h : tripLe x z = true
    · rw [if_pos h]
      obtain ⟨hmem, hle⟩ := ih x
      refine ⟨?_, ?_⟩
      · rcases List.mem_cons.mp hmem with h1 | h1
        · exact List.mem_cons.mpr (Or.inl h1)
        · exact List.mem_cons.mpr (Or.inr (List.mem_cons.mpr (Or.inr h1)))
      · intro y hy
        rcases List.mem_cons.mp hy with h1 | h1
        · subst h1
          exact hle _ (List.mem_cons.mpr (Or.inl rfl))
        · rcases List.mem_cons.mp h1 with h2 | h2
          · subst h2
            exact tripLe_trans (hle _ (List.mem_cons.mpr (Or.inl rfl))) h
          · exact hle _ (List.mem_cons.mpr (Or.inr h2))
    · rw [if_neg h]
      obtain ⟨hmem, hle⟩ := ih z
      have hzx : tripLe z x = true := by
        rcases tripLe_total x z with h1 | h1
        · exact absurd h1 h
        · exact h1
      refine ⟨?_, ?_⟩
      · rcases List.mem_cons.mp hmem with h1 | h1
        · exact List.mem_cons.mpr (Or.inr (List.mem_cons.mpr (Or.inl h1)))
        · exact List.mem_cons.mpr (Or.inr (List.mem_cons.mpr (Or.inr h1)))
      · intro y hy
        rcases List.mem_cons.mp hy with h1 | h1
        · subst h1
          exact tripLe_trans (hle _ (List.mem_cons.mpr (Or.inl rfl))) hzx
        · rcases List.mem_cons.mp h1 with h2 | h2
          · subst h2
            exact hle _ (List.mem_cons.mpr (Or.inl rfl))
          · exact hle _ (List.mem_cons.mpr (Or.inr h2))

theorem minTrip_mem {l : List (Nat × Nat × Nat)} {x : Nat × Nat × Nat}
    (h : minTrip l = some x) : x ∈ l := by
  cases l with
  | nil => simp [minTrip] at h
  | cons z zs =>
    have hx : zs.foldl (fun acc y => if tripLe acc y then acc else y) z = x :=
      Option.some.inj h
    rw [← hx]
    exact (foldlMin_spec zs z).1

theorem minTrip_le {l : List (Nat × Nat × Nat)} {x : Nat × Nat × Nat}
    (h : minTrip l = some x) : ∀ y ∈ l, tripLe x y = true := by
  cases l with
  | nil => simp [minTrip] at h
  | cons z zs =>
    have hx : zs.foldl (fun acc y => if tripLe acc y then acc else y) z = x :=
      Option.some.inj h
    rw [← hx]
    exact (foldlMin_spec zs z).2

theorem minTrip_some_of_ne_nil {l : List (Nat × Nat × Nat)} (h : l ≠ []) :
    ∃ x, minTrip l = some x := by
  cases l with
  | nil => exact absurd rfl h
  | cons z zs => exact ⟨_, rfl⟩

theorem mem_stdCandidates {ps : List Str} {t : Str} {e s i : Nat} :
    (e, s, i) ∈ stdCandidates ps t ↔
      ∃ p, ps.get? i = some p ∧ s ≤ t.length ∧ occursAtB p t s = true ∧
        e = s + p.length := by
  constructor
  · intro h
    obtain ⟨j, hj, hmem⟩ := List.mem_flatMap.mp h
    cases hget : ps.get? j with
    | none => rw [hget] at hmem; simp at hmem
    | some p =>
      rw [hget] at hmem
      obtain ⟨s', hs', hf⟩ := List.mem_filterMap.mp hmem
      by_cases hocc : occursAtB p t s' = true
      · rw [if_pos hocc] at hf
        have h3 := Option.some.inj hf
        have he : s' + p.length = e := congrArg Prod.fst h3
        have hs0 : s' = s := congrArg (fun q => q.2.1) h3
        have hj0 : j = i := congrArg (fun q => q.2.2) h3
        subst hs0
        subst hj0
        exact ⟨p, hget, Nat.lt_succ_iff.mp (List.mem_range.mp hs'), hocc,
          he.symm⟩
      · rw [if_neg hocc] at hf
        exact absurd hf (by simp)
  · intro ⟨p, hget, hs, hocc, he⟩
    apply List.mem_flatMap.mpr
    refine ⟨i, ?_, ?_⟩
    · apply List.mem_range.mpr
      by_contra hlt
      rw [List.get?_eq_none.mpr (Nat.le_of_not_lt hlt)] at hget
      exact absurd hget (by simp)
    · rw [hget]
      apply List.mem_filterMap.mpr
      exact ⟨s, List.mem_range.mpr (Nat.lt_succ_of_le hs),
        by rw [if_pos hocc, he]⟩

theorem acStdFind_spec {ps : List Str} {t : Str} {e s i : Nat}
    (h : acStdFind ps t = some (e, s, i)) :
    (∃ p, ps.get? i = some p ∧ s ≤ t.length ∧ occursAtB p t s = true ∧
      e = s + p.length) ∧
    ∀ e' s' j p', ps.get? j = some p' → s' ≤ t.length →
      occursAtB p' t s' = true → e' = s' + p'.length →
      tripLe (e, s, i) (e', s', j) = true := by
  constructor
  · exact mem_stdCandidates.mp (minTrip_mem h)
  · intro e' s' j p' hj hs' hocc he'
    exact minTrip_le h _ (mem_stdCandidates.mpr ⟨p', hj, hs', hocc, he'⟩)

theorem acStdFind_some_of_occurs {ps : List Str} {t : Str} {j : Nat}
    {p : Str} {s' : Nat} (hj : ps.get? j = some p) (hs : s' ≤ t.length)
    (hocc : occursAtB p t s' = true) :
    ∃ x, acStdFind ps t = some x := by
  apply minTrip_some_of_ne_nil
  exact List.ne_nil_of_mem (mem_stdCandidates.mpr ⟨p, hj, hs, hocc, rfl⟩)

theorem acStdFind_idx_lt {ps : List Str} {t : Str} {e s i : Nat}
    (h : acStdFind ps t = some (e, s, i)) : i < ps.length := by
  obtain ⟨⟨p, hp, _⟩, _⟩ := acStdFind_spec h
  by_contra hlt
  rw [List.get?_eq_none.mpr (Nat.le_of_not_lt hlt)] at hp
  exact absurd hp (by simp)

theorem firstSetMatch_idx_lt {set : List RegexM} {t : Str} {i : Nat}
    (h : firstSetMatch set t = some i) : i < set.length := by
  have hmem := List.mem_of_find?_eq_some h
  exact List.mem_range.mp hmem

theorem charToLower_ofNat_fixed (m : Nat) (h1 : 97 ≤ m) (h2 : m ≤ 122) :
    Char.toLower (Char.ofNat m) = Char.ofNat m := by
  interval_cases m <;> decide

theorem charToLower_idem (c : Char) :
    Char.toLower (Char.toLower c) = Char.toLower c := by
  by_cases h : c.toNat ≥ 65 ∧ c.toNat ≤ 90
  · have h1 : Char.toLower c = Char.ofNat (c.toNat + 32) := by
      simp only [Char.toLower]
      rw [if_pos h]
    rw [h1]
    exact charToLower_ofNat_fixed _ (by omega) (by omega)
  · have h1 : Char.toLower c = c := by
      simp only [Char.toLower]
      rw [if_neg h]
    rw [h1]
    exact h1

theorem lowerStr_idem (s : Str) : lowerStr (lowerStr s) = lowerStr s := by
  induction s with
  | nil => rfl
  | cons c cs ih =>
    simp only [lowerStr, List.map_cons] at ih ⊢
    rw [charToLower_idem c]
    exact congrArg _ ih

/-- Claim C1: the published regex bundle is claimed to be ordered by
ascending rule id, so that the lowest matching pattern index is the
matching rule with the lowest id.  The code instead builds the bundle
from the moka cache's unspecified iteration order (cache.rs lines
75-80).  With rules id 1 ("aa", REJECTED, "d1") and id 2 ("bb",
NEEDS_REVIEW, "d2"), both delivered in ascending id order but iterated
by the cache with id 2 first (a permutation of the cache contents, as
witnessed by the first conjunct), the text "aabb" matches both rules
yet decide reports rule 2's action and description, not rule 1's. -/
theorem c1_regex_bundle_order_bug :
    [c1_rule2, c1_rule1].Perm
      ([c1_rule1, c1_rule2].foldl (fun m it => upsert it.1 it.2 m) []) ∧
    moderate_comment c1_cache "aabb".data =
      { status := "NEEDS_REVIEW".data, reason := some ("d2".data) } ∧
    moderate_comment c1_cache "aabb".data ≠
      { status := "REJECTED".data, reason := some ("d1".data) } := by
  refine ⟨?_, by decide, by decide⟩
  have hfold : [c1_rule1, c1_rule2].foldl (fun m it => upsert it.1 it.2 m) []
      = [c1_rule1, c1_rule2] := by
    simp [upsert, c1_rule1, c1_rule2]
  rw [hfold]
  exact List.Perm.swap c1_rule1 c1_rule2 []

/-- Claim C2, counterexample: the claim says that with words
["abc", "ab"] loaded in that order, decide on "xabcx" reports the
pattern at index 0 ("abc").  The default Aho-Corasick standard
semantics reports the earliest-ending occurrence, which is "ab"
(index 1, ending at offset 3), so the decision carries index 1's
action and word, not index 0's. -/
theorem c2_counterexample :
    moderate_comment c2_cache "xabcx".data =
      { status := "NEEDS_REVIEW".data
        reason := some (litReasonTag ++ "ab".data) } ∧
    moderate_comment c2_cache "xabcx".data ≠
      { status := "REJECTED".data
        reason := some (litReasonTag ++ "abc".data) } := by
  constructor
  · decide
  · decide

/-- Claim C2 (amended): for every literal rule list and every text, the
literal stage of decide reports the occurrence with the smallest end
position in the text; among occurrences ending at the same position the
one with the smallest start position wins, and among identical spans
the lowest pattern index wins (`tripLe` on (end, start, index)).  In
particular with words ["abc", "ab"] loaded in that order, decide on
"xabcx" reports the pattern at index 1 ("ab"). -/
theorem c2_amended_earliest_ending_occurrence
    (c : ModerationCache) (content : Str) (m : BadWordsMatcher)
    (e s i : Nat)
    (hm : c.bad_words_matcher = some m)
    (hf : acStdFind m.words (lowerStr content) = some (e, s, i)) :
    (∃ p, m.words.get? i = some p ∧ s ≤ (lowerStr content).length ∧
      occursAtB p (lowerStr content) s = true ∧ e = s + p.length) ∧
    (∀ e' s' j p', m.words.get? j = some p' →
      s' ≤ (lowerStr content).length →
      occursAtB p' (lowerStr content) s' = true → e' = s' + p'.length →
      tripLe (e, s, i) (e', s', j) = true) ∧
    moderate_comment c content =
      { status := m.actions.getD i []
        reason := some (litReasonTag ++ m.words.getD i []) } := by
  obtain ⟨hocc, hmin⟩ := acStdFind_spec hf
  refine ⟨hocc, hmin, ?_⟩
  simp only [moderate_comment, moderateLowered, hm, hf]

/-- Witness for C2's amended theorem at the claim's own example:
words ["abc", "ab"], text "xabcx", reported triple (3, 1, 1). -/
theorem c2_amended_witness :
    (∃ p, c2_matcher.words.get? 1 = some p ∧
      1 ≤ (lowerStr "xabcx".data).length ∧
      occursAtB p (lowerStr "xabcx".data) 1 = true ∧ 3 = 1 + p.length) ∧
    (∀ e' s' j p', c2_matcher.words.get? j = some p' →
      s' ≤ (lowerStr "xabcx".data).length →
      occursAtB p' (lowerStr "xabcx".data) s' = true →
      e' = s' + p'.length →
      tripLe (3, 1, 1) (e', s', j) = true) ∧
    moderate_comment c2_cache "xabcx".data =
      { status := c2_matcher.actions.getD 1 []
        reason := some (litReasonTag ++ c2_matcher.words.getD 1 []) } :=
  c2_amended_earliest_ending_occurrence c2_cache "xabcx".data c2_matcher
    3 1 1 (by decide) (by decide)

/-- Claim C3: if both bundles are published, the lowercased text
contains some stored literal word, and some regex rule matches it, the
decision is the literal rule's action and reason (the literal stage has
absolute priority; the regex stage is not consulted). -/
theorem c3_literal_priority
    (c : ModerationCache) (content : Str) (m : BadWordsMatcher)
    (rb : RegexSetBundle)
    (hm : c.bad_words_matcher = some m)
    (hr : c.regex_set_bundle = some rb)
    (hlit : ∃ j p s', m.words.get? j = some p ∧
      s' ≤ (lowerStr content).length ∧
      occursAtB p (lowerStr content) s' = true)
    (hreg : ∃ k f, rb.set.get? k = some f ∧ f (lowerStr content) = true) :
    ∃ e s i, acStdFind m.words (lowerStr content) = some (e, s, i) ∧
      moderate_comment c content =
        { status := m.actions.getD i []
          reason := some (litReasonTag ++ m.words.getD i []) } := by
  obtain ⟨j, p, s', hj, hs, hocc⟩ := hlit
  obtain ⟨⟨e, s, i⟩, hfind⟩ := acStdFind_some_of_occurs hj hs hocc
  refine ⟨e, s, i, hfind, ?_⟩
  simp only [moderate_comment, moderateLowered, hm, hfind]

/-- Witness for C3 at the spec's end-to-end example: literal rule
"spam" (REJECTED) and regex rule 5 matching "free money"
(NEEDS_REVIEW); the text contains both, and the literal rule decides. -/
theorem c3_literal_priority_witness :
    ∃ e s i, acStdFind c3_matcher.words
        (lowerStr "this is spam and free money".data) = some (e, s, i) ∧
      moderate_comment c3_cache "this is spam and free money".data =
        { status := c3_matcher.actions.getD i []
          reason := some (litReasonTag ++ c3_matcher.words.getD i []) } :=
  c3_literal_priority c3_cache "this is spam and free money".data
    c3_matcher c3_bundle (by decide) rfl
    ⟨0, "spam".data, 8, by decide, by decide, by decide⟩
    ⟨0, containsSub "free money".data, rfl, by decide⟩

/-- Claim C4, counterexample: the claim says the literal-match reason is
the string "literal match: " followed by the matched word.  The code
formats "Küfür tespit edildi: " followed by the matched word
(routes.rs line 288), so on the claim's own example the reason differs
from the claimed one. -/
theorem c4_counterexample :
    (moderate_comment c4_cache "this is spam and free money".data).reason ≠
      some ("literal match: ".data ++ "spam".data) ∧
    moderate_comment c4_cache "this is spam and free money".data =
      { status := "REJECTED".data
        reason := some ("Küfür tespit edildi: ".data ++ "spam".data) } := by
  constructor
  · decide
  · decide

/-- Claim C4 (amended): whenever decide finds a literal match, the
returned decision's reason is "Küfür tespit edildi: " followed by the
matched stored word; with literal rule (word "spam", REJECTED),
decide("this is spam and free money") returns status REJECTED and
reason "Küfür tespit edildi: spam". -/
theorem c4_amended_reason_tag
    (c : ModerationCache) (content : Str) (m : BadWordsMatcher)
    (e s i : Nat)
    (hm : c.bad_words_matcher = some m)
    (hf : acStdFind m.words (lowerStr content) = some (e, s, i)) :
    moderate_comment c content =
      { status := m.actions.getD i []
        reason := some (litReasonTag ++ m.words.getD i []) } := by
  simp only [moderate_comment, moderateLowered, hm, hf]

/-- Witness for C4's amended theorem at the claim's example. -/
theorem c4_amended_witness :
    moderate_comment c4_cache "this is spam and free money".data =
      { status := c4_matcher.actions.getD 0 []
        reason := some (litReasonTag ++ c4_matcher.words.getD 0 []) } :=
  c4_amended_reason_tag c4_cache "this is spam and free money".data
    c4_matcher 12 8 0 (by decide) (by decide)

/-- Claim C5: literal matching is case-insensitive via one
normalization on each side.  Conjuncts: decide is invariant under
pre-lowercasing its input; loading pre-lowercased words builds the very
same cache state (stored casing is irrelevant); and text "BAD" matches
a stored literal rule "bAd" (normalized to "bad" at build time). -/
theorem c5_case_insensitive :
    (∀ (c : ModerationCache) (content : Str),
      moderate_comment c content = moderate_comment c (lowerStr content)) ∧
    (∀ (c : ModerationCache) (ws : List (Str × Str)),
      load_bad_words c (ws.map (fun wa => (lowerStr wa.1, wa.2))) =
        load_bad_words c ws) ∧
    moderate_comment (load_bad_words ModerationCache.new
      [("bAd".data, "REJECTED".data)]) "BAD".data =
      { status := "REJECTED".data
        reason := some (litReasonTag ++ "bad".data) } := by
  refine ⟨?_, ?_, by decide⟩
  · intro c content
    unfold moderate_comment
    rw [lowerStr_idem]
  · intro c ws
    have hf : (fun wa : Str × Str => (lowerStr wa.1, wa.2)) ∘
        (fun wa : Str × Str => (lowerStr wa.1, wa.2)) =
        (fun wa : Str × Str => (lowerStr wa.1, wa.2)) := by
      funext wa
      simp [Function.comp, lowerStr_idem]
    simp only [load_bad_words]
    rw [List.map_map, hf]

/-- Claim C6: reloading a kind with an empty rule sequence publishes
absence (no bundle), empties the raw cache, and decide then skips that
stage entirely: after an empty literal reload the decision is exactly
the regex-stage fallback, for every input text, whatever was cached
before. -/
theorem c6_empty_reload_absence :
    (∀ c : ModerationCache, (load_bad_words c []).bad_words_matcher = none) ∧
    (∀ c : ModerationCache, (load_bad_words c []).bad_words = []) ∧
    (∀ c : ModerationCache,
      (load_regex_rules c [] []).regex_set_bundle = none) ∧
    (∀ (c : ModerationCache) (content : Str),
      moderate_comment (load_bad_words c []) content =
        regexStage c.regex_set_bundle (lowerStr content)) :=
  ⟨fun _ => rfl, fun _ => rfl, fun _ => rfl, fun _ _ => rfl⟩

/-- Claim C7: decide is total (it is a plain function into
`ModerationResponse` with no error result), and whenever neither stage
finds a match — including when no bundle of either kind is published —
it returns status APPROVED with no reason. -/
theorem c7_no_match_approved
    (c : ModerationCache) (content : Str)
    (hlit : literalIdx c (lowerStr content) = none)
    (hreg : regexIdx c (lowerStr content) = none) :
    moderate_comment c content =
      { status := "APPROVED".data, reason := none } := by
  cases hm : c.bad_words_matcher with
  | none =>
    cases hr : c.regex_set_bundle with
    | none =>
      simp [moderate_comment, moderateLowered, regexStage, hm, hr,
        approvedResponse]
    | some rb =>
      simp only [regexIdx, hr] at hreg
      simp [moderate_comment, moderateLowered, regexStage, hm, hr, hreg,
        approvedResponse]
  | some m =>
    simp only [literalIdx, hm] at hlit
    cases hr : c.regex_set_bundle with
    | none =>
      simp [moderate_comment, moderateLowered, regexStage, hm, hr, hlit,
        approvedResponse]
    | some rb =>
      simp only [regexIdx, hr] at hreg
      simp [moderate_comment, moderateLowered, regexStage, hm, hr, hlit,
        hreg, approvedResponse]

/-- Witness for C7 at the spec's example: rule set with literal "spam"
and a regex for "free money"; "hello world" matches neither and is
APPROVED with no reason. -/
theorem c7_no_match_approved_witness :
    literalIdx c7_cache (lowerStr "hello world".data) = none ∧
    regexIdx c7_cache (lowerStr "hello world".data) = none ∧
    moderate_comment c7_cache "hello world".data =
      { status := "APPROVED".data, reason := none } :=
  ⟨by decide, by decide,
    c7_no_match_approved c7_cache "hello world".data (by decide) (by decide)⟩

/-- Claim C8: deleting a literal word absent from the store, or a regex
id absent from the store, affects zero rows; the handler reports
NotFound and performs no reload: the table, the raw caches and the
published bundles are returned exactly as they were. -/
theorem c8_delete_missing_notfound :
    (∀ (db : List BadWordRow) (c : ModerationCache) (w : Str),
      (∀ r ∈ db, r.word ≠ w) →
      delete_badword db c w = (Except.error ErrorKind.notFound, db, c)) ∧
    (∀ (compile : Str → RegexM) (db : List RegexRuleRow)
      (c : ModerationCache) (rid : Int)
      (iter : List (Int × (RegexM × Str × Str))),
      (∀ r ∈ db, r.id ≠ rid) →
      delete_regex compile db c rid iter =
        (Except.error ErrorKind.notFound, db, c)) := by
  constructor
  · intro db c w hw
    have hfilter : db.filter (fun r => decide (r.word ≠ w)) = db :=
      List.filter_eq_self.mpr (fun r hr => decide_eq_true (hw r hr))
    simp only [delete_badword]
    rw [hfilter, if_pos (Nat.sub_self db.length)]
  · intro compile db c rid iter hid
    have hfilter : db.filter (fun r => decide (r.id ≠ rid)) = db :=
      List.filter_eq_self.mpr (fun r hr => decide_eq_true (hid r hr))
    simp only [delete_regex]
    rw [hfilter, if_pos (Nat.sub_self db.length)]

/-- Witness for C8: the word "absent" is not in the one-row literal
table and id 7 is not in the one-row regex table; both deletions report
NotFound and leave table and cache untouched. -/
theorem c8_delete_missing_notfound_witness :
    (∀ r ∈ c8_db, r.word ≠ "absent".data) ∧
    delete_badword c8_db ModerationCache.new "absent".data =
      (Except.error ErrorKind.notFound, c8_db, ModerationCache.new) ∧
    (∀ r ∈ c8_rdb, r.id ≠ (7 : Int)) ∧
    delete_regex (fun p => containsSub p) c8_rdb ModerationCache.new 7 [] =
      (Except.error ErrorKind.notFound, c8_rdb, ModerationCache.new) :=
  ⟨by decide,
    c8_delete_missing_notfound.1 c8_db ModerationCache.new "absent".data
      (by decide),
    by decide,
    c8_delete_missing_notfound.2 (fun p => containsSub p) c8_rdb
      ModerationCache.new 7 [] (by decide)⟩

/-- Claim C9: the settings store is opaque to the decision procedure —
decide depends only on the two published bundles and the input text, so
two caches agreeing on the bundles decide identically whatever their
settings, and a settings reload never changes any decision. -/
theorem c9_settings_opaque :
    (∀ c1 c2 : ModerationCache,
      c1.bad_words_matcher = c2.bad_words_matcher →
      c1.regex_set_bundle = c2.regex_set_bundle →
      ∀ content : Str,
        moderate_comment c1 content = moderate_comment c2 content) ∧
    (∀ (c : ModerationCache) (items : List (Str × Str)) (content : Str),
      moderate_comment (load_settings c items) content =
        moderate_comment c content) := by
  constructor
  · intro c1 c2 h1 h2 content
    unfold moderate_comment moderateLowered regexStage
    rw [h1, h2]
  · intro c items content
    rfl

/-- Witness for C9: two caches identical except for the stored value of
settings key "k" decide the same text identically. -/
theorem c9_settings_opaque_witness :
    c9_cache1.bad_words_matcher = c9_cache2.bad_words_matcher ∧
    c9_cache1.regex_set_bundle = c9_cache2.regex_set_bundle ∧
    c9_cache1.settings ≠ c9_cache2.settings ∧
    moderate_comment c9_cache1 "so bad".data =
      moderate_comment c9_cache2 "so bad".data :=
  ⟨rfl, rfl, by decide,
    c9_settings_opaque.1 c9_cache1 c9_cache2 rfl rfl "so bad".data⟩

/-- Claim C10: published bundles satisfy the parallel-array invariant —
a published literal matcher has as many words as actions (both the
number of compiled patterns, the input length), a published regex
bundle has pattern set, descriptions and actions of one common length
(the iterated cache-entry count) — and every pattern index either stage
can return is below that length, so the metadata lookups in decide are
in bounds. -/
theorem c10_parallel_arrays :
    (∀ (c : ModerationCache) (ws : List (Str × Str)) (m : BadWordsMatcher),
      (load_bad_words c ws).bad_words_matcher = some m →
      m.words.length = ws.length ∧ m.actions.length = ws.length) ∧
    (∀ (ps : List Str) (t : Str) (e s i : Nat),
      acStdFind ps t = some (e, s, i) → i < ps.length) ∧
    (∀ (c : ModerationCache)
      (items iter : List (Int × (RegexM × Str × Str))) (rb : RegexSetBundle),
      (load_regex_rules c items iter).regex_set_bundle = some rb →
      rb.set.length = iter.length ∧ rb.descriptions.length = iter.length ∧
        rb.actions.length = iter.length) ∧
    (∀ (set : List RegexM) (t : Str) (i : Nat),
      firstSetMatch set t = some i → i < set.length) := by
  refine ⟨?_, ?_, ?_, ?_⟩
  · intro c ws m hm
    simp only [load_bad_words] at hm
    split at hm
    · exact absurd hm (by simp)
    · have h1 := Option.some.inj hm
      rw [← h1]
      simp [List.length_map]
  · intro ps t e s i h
    exact acStdFind_idx_lt h
  · intro c items iter rb hb
    simp only [load_regex_rules] at hb
    split at hb
    · exact absurd hb (by simp)
    · have h1 := Option.some.inj hb
      rw [← h1]
      simp [List.length_map]
  · intro set t i h
    exact firstSetMatch_idx_lt h

/-- Witness for C10 on one-rule bundles: the published arrays all have
length 1 and the returned match indices are below 1. -/
theorem c10_parallel_arrays_witness :
    c10_cache.bad_words_matcher = some c10_matcher ∧
    (c10_matcher.words.length = 1 ∧ c10_matcher.actions.length = 1) ∧
    (acStdFind ["aa".data] "xaa".data = some (3, 1, 0) ∧ 0 < 1) ∧
    c10_rcache.regex_set_bundle = some c10_bundle ∧
    (c10_bundle.set.length = 1 ∧ c10_bundle.descriptions.length = 1 ∧
      c10_bundle.actions.length = 1) ∧
    (firstSetMatch c10_bundle.set "abba".data = some 0 ∧ 0 < 1) :=
  ⟨by decide,
    c10_parallel_arrays.1 ModerationCache.new
      [("aa".data, "REJECTED".data)] c10_matcher (by decide),
    ⟨by decide, c10_parallel_arrays.2.1 ["aa".data] "xaa".data 3 1 0
      (by decide)⟩,
    rfl,
    c10_parallel_arrays.2.2.1 ModerationCache.new [c10_rule] [c10_rule]
      c10_bundle rfl,
    ⟨by decide, c10_parallel_arrays.2.2.2 c10_bundle.set "abba".data 0
      (by decide)⟩⟩
